import Mathlib

/-!
Verification of the SQLite-Phasor bridge (src/sqlite-phs.cpp) against its
natural-language specification.

The bridge keeps three process-global registries (connection, prepared
statement, string), each an unordered map from a C int handle to a native
resource, together with a monotonically increasing counter per space that
starts at 1.  Every exposed operation validates the argument shape, resolves
handles, calls into the native SQLite engine, updates the registries, and
marshals the outcome back into a tagged PhasorValue.

The embedding below models each registry as an association list keyed by
Int with map semantics (unique keys in reachable states), the native engine
as an oracle structure of response functions, and each bridge operation as a
pure function from (oracle, state, argument list) to (state, result, native
call trace).  Machine-integer effects that the code performs are explicit:
the cast of a host 64-bit integer argument to the C int handle type is the
two-complement wrap toInt32, and the integer column reader uses
sqlite3_column_int, which narrows the native 64-bit column value to 32 bits.
Overflow of the per-space int counters is C++ signed-overflow undefined
behaviour and is outside the model: counters are unbounded, and theorems
that need a handle to survive the int cast assume the counter is in the
32-bit range, which holds on every execution the C++ standard defines.
-/

namespace SQLitePhasor

/-- Opaque native database connection pointer (sqlite3 star). -/
structure NativeDb where
  id : Nat
deriving DecidableEq, Repr

/-- Opaque native prepared statement pointer (sqlite3_stmt star). -/
structure NativeStmt where
  id : Nat
deriving DecidableEq, Repr

/-- Abstract bit pattern of a C double; the bridge never inspects it. -/
structure DoubleRep where
  bits : Nat
deriving DecidableEq, Repr

/-- The tagged value union of the Phasor FFI (PhasorValue in PhasorFFI.hpp),
restricted to the tags the bridge produces or inspects. -/
inductive PhasorValue where
  | null
  | bool (b : Bool)
  | int (i : Int)
  | float (f : DoubleRep)
  | string (s : String)
deriving DecidableEq, Repr

/-- phasor_is_int from PhasorFFI.hpp: tag test for the int member. -/
def phasor_is_int : PhasorValue → Bool
  | .int _ => true
  | _ => false

/-- phasor_is_string from PhasorFFI.hpp: tag test for the string member. -/
def phasor_is_string : PhasorValue → Bool
  | .string _ => true
  | _ => false

/-- phasor_to_int from PhasorFFI.hpp: unchecked read of the int64 member.
The bridge only calls it after phasor_is_int, so the default never arises. -/
def phasor_to_int : PhasorValue → Int
  | .int i => i
  | _ => 0

/-- phasor_to_string from PhasorFFI.hpp: unchecked read of the string member.
The bridge only calls it after phasor_is_string. -/
def phasor_to_string : PhasorValue → String
  | .string s => s
  | _ => ""

/-- The C cast (int) applied to an int64_t value: two-complement wrap into
the signed 32-bit range. -/
def toInt32 (v : Int) : Int :=
  (v + 2 ^ 31) % 2 ^ 32 - 2 ^ 31

/-- One registry table: association list from int handle to resource, with
map semantics (std::unordered_map with int keys). -/
abbrev Table (α : Type) := List (Int × α)

/-- Map lookup: the value at key k, or none (unordered_map find). -/
def lookupTable {α : Type} : Table α → Int → Option α
  | [], _ => none
  | (k2, v) :: rest, k => if k2 = k then some v else lookupTable rest k

/-- Map store (unordered_map operator bracket assignment): replace the
binding of k if present, else append a new binding. -/
def insertTable {α : Type} : Table α → Int → α → Table α
  | [], k, v => [(k, v)]
  | (k2, v2) :: rest, k, v =>
      if k2 = k then (k, v) :: rest else (k2, v2) :: insertTable rest k v

/-- Map erase (unordered_map erase): drop the binding of k if present. -/
def eraseTable {α : Type} : Table α → Int → Table α
  | [], _ => []
  | (k2, v2) :: rest, k =>
      if k2 = k then rest else (k2, v2) :: eraseTable rest k

/-- The mutable globals of sqlite-phs.cpp: the three registry tables and
the three allocation counters. -/
structure BridgeState where
  db_table : Table NativeDb
  stmt_table : Table NativeStmt
  string_table : Table String
  next_db_handle : Int
  next_stmt_handle : Int
  next_string_handle : Int
deriving DecidableEq, Repr

/-- The state at process start: empty tables, all counters at 1. -/
def initialState : BridgeState :=
  ⟨[], [], [], 1, 1, 1⟩

/-- Outcome of one native sqlite3_step call. -/
inductive StepOutcome where
  | row
  | done
  | error (code : Int)
deriving DecidableEq, Repr

/-- Native column type as reported by sqlite3_column_type; blob stands for
SQLITE_BLOB and any other code the switch default absorbs. -/
inductive ColType where
  | integer
  | float
  | text
  | nullType
  | blob
deriving DecidableEq, Repr

/-- Oracle for the native SQLite engine: the responses the engine would give
to each native call the bridge can make during one bridge operation. -/
structure Env where
  openResult : String → Option NativeDb
  execOk : NativeDb → String → Bool
  prepareResult : NativeDb → String → Option NativeStmt
  stepResult : NativeStmt → StepOutcome
  columnCount : NativeStmt → Int
  columnType : NativeStmt → Int → ColType
  columnInt64 : NativeStmt → Int → Int
  columnDouble : NativeStmt → Int → DoubleRep
  columnText : NativeStmt → Int → String

/-- Trace record of one call into the native engine. -/
inductive NativeCall where
  | openCall (path : String)
  | closeFailedOpen (path : String)
  | closeCall (db : NativeDb)
  | execCall (db : NativeDb) (sql : String)
  | freeErrMsg
  | prepareCall (db : NativeDb) (sql : String)
  | stepCall (stmt : NativeStmt)
  | columnCountCall (stmt : NativeStmt)
  | columnTypeCall (stmt : NativeStmt) (idx : Int)
  | columnIntCall (stmt : NativeStmt) (idx : Int)
  | columnDoubleCall (stmt : NativeStmt) (idx : Int)
  | columnTextCall (stmt : NativeStmt) (idx : Int)
  | finalizeCall (stmt : NativeStmt)
deriving DecidableEq, Repr

/-- Result of one bridge operation: the new global state, the tagged value
returned to the host, and the trace of native engine calls performed. -/
abbrev BridgeResult := BridgeState × PhasorValue × List NativeCall

/-- get_db: resolve a connection handle in the connection registry. -/
def get_db (s : BridgeState) (handle : Int) : Option NativeDb :=
  lookupTable s.db_table handle

/-- get_stmt: resolve a statement handle in the statement registry. -/
def get_stmt (s : BridgeState) (handle : Int) : Option NativeStmt :=
  lookupTable s.stmt_table handle

/-- get_string: resolve a string handle in the string registry. -/
def get_string (s : BridgeState) (handle : Int) : Option String :=
  lookupTable s.string_table handle

/-- store_string: allocate the next string handle, store the copy, return
the handle together with the updated state. -/
def store_string (s : BridgeState) (str : String) : BridgeState × Int :=
  ({ s with string_table := insertTable s.string_table s.next_string_handle str,
            next_string_handle := s.next_string_handle + 1 },
   s.next_string_handle)

/-- free_string: erase a string handle from the string registry (no-op when
absent). -/
def free_string (s : BridgeState) (handle : Int) : BridgeState :=
  { s with string_table := eraseTable s.string_table handle }

/-- sqlite_open: validate (string path), open the native connection, and on
success allocate a connection handle.  On native failure the code still
calls sqlite3_close on the out pointer before returning null. -/
def sqlite_open (env : Env) (s : BridgeState) : List PhasorValue → BridgeResult
  | [a0] =>
    if phasor_is_string a0 then
      let filename := phasor_to_string a0
      match env.openResult filename with
      | some db =>
          ({ s with db_table := insertTable s.db_table s.next_db_handle db,
                    next_db_handle := s.next_db_handle + 1 },
           .int s.next_db_handle,
           [.openCall filename])
      | none => (s, .null, [.openCall filename, .closeFailedOpen filename])
    else (s, .null, [])
  | _ => (s, .null, [])

/-- sqlite_close: validate (int handle), cast the handle to C int, release
the registry entry if present and close the native connection. -/
def sqlite_close (_env : Env) (s : BridgeState) : List PhasorValue → BridgeResult
  | [a0] =>
    if phasor_is_int a0 then
      let handle := toInt32 (phasor_to_int a0)
      match lookupTable s.db_table handle with
      | some db =>
          ({ s with db_table := eraseTable s.db_table handle },
           .bool true, [.closeCall db])
      | none => (s, .bool false, [])
    else (s, .bool false, [])
  | _ => (s, .bool false, [])

/-- sqlite_exec: validate (int handle, string sql), resolve the connection,
run the one-shot native exec; on native failure the error text is freed and
discarded. -/
def sqlite_exec (env : Env) (s : BridgeState) : List PhasorValue → BridgeResult
  | [a0, a1] =>
    if phasor_is_int a0 && phasor_is_string a1 then
      let handle := toInt32 (phasor_to_int a0)
      let sql := phasor_to_string a1
      match get_db s handle with
      | some db =>
          if env.execOk db sql then (s, .bool true, [.execCall db sql])
          else (s, .bool false, [.execCall db sql, .freeErrMsg])
      | none => (s, .bool false, [])
    else (s, .bool false, [])
  | _ => (s, .bool false, [])

/-- sqlite_prepare: validate (int handle, string sql), resolve the
connection, compile the SQL, and on success allocate a statement handle. -/
def sqlite_prepare (env : Env) (s : BridgeState) : List PhasorValue → BridgeResult
  | [a0, a1] =>
    if phasor_is_int a0 && phasor_is_string a1 then
      let db_handle := toInt32 (phasor_to_int a0)
      let sql := phasor_to_string a1
      match get_db s db_handle with
      | some db =>
          match env.prepareResult db sql with
          | some stmt =>
              ({ s with stmt_table := insertTable s.stmt_table s.next_stmt_handle stmt,
                        next_stmt_handle := s.next_stmt_handle + 1 },
               .int s.next_stmt_handle,
               [.prepareCall db sql])
          | none => (s, .null, [.prepareCall db sql])
      | none => (s, .null, [])
    else (s, .null, [])
  | _ => (s, .null, [])

/-- sqlite_step: validate (int handle), resolve the statement, advance the
native cursor: row gives true, done gives false, any other code gives null. -/
def sqlite_step (env : Env) (s : BridgeState) : List PhasorValue → BridgeResult
  | [a0] =>
    if phasor_is_int a0 then
      let handle := toInt32 (phasor_to_int a0)
      match get_stmt s handle with
      | some stmt =>
          match env.stepResult stmt with
          | .row => (s, .bool true, [.stepCall stmt])
          | .done => (s, .bool false, [.stepCall stmt])
          | .error _ => (s, .null, [.stepCall stmt])
      | none => (s, .null, [])
    else (s, .null, [])
  | _ => (s, .null, [])

/-- sqlite_column: validate (int handle, int index), resolve the statement,
bounds-check the index against the native column count, then read the value
by native type.  The integer case uses sqlite3_column_int, which narrows
the native 64-bit column value to a C int, modelled by toInt32.  The text
case copies the text into a fresh string registry entry and returns the
stored copy. -/
def sqlite_column (env : Env) (s : BridgeState) : List PhasorValue → BridgeResult
  | [a0, a1] =>
    if phasor_is_int a0 && phasor_is_int a1 then
      let stmt_handle := toInt32 (phasor_to_int a0)
      let col_index := toInt32 (phasor_to_int a1)
      match get_stmt s stmt_handle with
      | some stmt =>
          let count := env.columnCount stmt
          if col_index < 0 || count ≤ col_index then
            (s, .null, [.columnCountCall stmt])
          else
            match env.columnType stmt col_index with
            | .integer =>
                (s, .int (toInt32 (env.columnInt64 stmt col_index)),
                 [.columnCountCall stmt, .columnTypeCall stmt col_index,
                  .columnIntCall stmt col_index])
            | .float =>
                (s, .float (env.columnDouble stmt col_index),
                 [.columnCountCall stmt, .columnTypeCall stmt col_index,
                  .columnDoubleCall stmt col_index])
            | .text =>
                let str := env.columnText stmt col_index
                ((store_string s str).1, .string str,
                 [.columnCountCall stmt, .columnTypeCall stmt col_index,
                  .columnTextCall stmt col_index])
            | .nullType =>
                (s, .null, [.columnCountCall stmt, .columnTypeCall stmt col_index])
            | .blob =>
                (s, .null, [.columnCountCall stmt, .columnTypeCall stmt col_index])
      | none => (s, .null, [])
    else (s, .null, [])
  | _ => (s, .null, [])

/-- sqlite_finalize: validate (int handle), release the statement registry
entry if present and finalize the native statement. -/
def sqlite_finalize (_env : Env) (s : BridgeState) : List PhasorValue → BridgeResult
  | [a0] =>
    if phasor_is_int a0 then
      let handle := toInt32 (phasor_to_int a0)
      match lookupTable s.stmt_table handle with
      | some stmt =>
          ({ s with stmt_table := eraseTable s.stmt_table handle },
           .bool true, [.finalizeCall stmt])
      | none => (s, .bool false, [])
    else (s, .bool false, [])
  | _ => (s, .bool false, [])

/-- sqlite_free_string: validate (int handle), erase the string registry
entry (no-op when absent), always return null; no native call is made. -/
def sqlite_free_string (_env : Env) (s : BridgeState) : List PhasorValue → BridgeResult
  | [a0] =>
    if phasor_is_int a0 then
      (free_string s (toInt32 (phasor_to_int a0)), .null, [])
    else (s, .null, [])
  | _ => (s, .null, [])

/-- The eight registered bridge operations. -/
inductive BridgeOp where
  | openOp
  | closeOp
  | execOp
  | prepareOp
  | stepOp
  | columnOp
  | finalizeOp
  | freeStringOp
deriving DecidableEq, Repr

/-- Dispatch one bridge operation. -/
def applyOp : BridgeOp → Env → BridgeState → List PhasorValue → BridgeResult
  | .openOp => sqlite_open
  | .closeOp => sqlite_close
  | .execOp => sqlite_exec
  | .prepareOp => sqlite_prepare
  | .stepOp => sqlite_step
  | .columnOp => sqlite_column
  | .finalizeOp => sqlite_finalize
  | .freeStringOp => sqlite_free_string

/-- Argument shape accepted by sqlite_open: exactly one string. -/
def open_shape : List PhasorValue → Bool
  | [a0] => phasor_is_string a0
  | _ => false

/-- Argument shape accepted by close, step, finalize and free_string:
exactly one int. -/
def one_int_shape : List PhasorValue → Bool
  | [a0] => phasor_is_int a0
  | _ => false

/-- Argument shape accepted by exec and prepare: an int then a string. -/
def exec_shape : List PhasorValue → Bool
  | [a0, a1] => phasor_is_int a0 && phasor_is_string a1
  | _ => false

/-- Argument shape accepted by column: two ints. -/
def column_shape : List PhasorValue → Bool
  | [a0, a1] => phasor_is_int a0 && phasor_is_int a1
  | _ => false

/-- States reachable from process start by any sequence of bridge calls. -/
inductive Reach : BridgeState → Prop where
  | init : Reach initialState
  | step (op : BridgeOp) (env : Env) (args : List PhasorValue) {s : BridgeState} :
      Reach s → Reach (applyOp op env s args).1

/-- States reachable from a given state by any sequence of bridge calls. -/
inductive ReachFrom : BridgeState → BridgeState → Prop where
  | refl (s : BridgeState) : ReachFrom s s
  | step (op : BridgeOp) (env : Env) (args : List PhasorValue)
      {s s2 : BridgeState} :
      ReachFrom s s2 → ReachFrom s (applyOp op env s2 args).1

/-- Ghost history of every handle ever allocated, per space. -/
structure AllocHistory where
  dbAllocs : List Int
  stmtAllocs : List Int
  stringAllocs : List Int
deriving DecidableEq, Repr

/-- History update across one bridge call: each op bumps a counter by at
most one, and when it does the allocated handle is the old counter value. -/
def stepAllocs (s s2 : BridgeState) (h : AllocHistory) : AllocHistory :=
  ⟨h.dbAllocs ++ (if s2.next_db_handle = s.next_db_handle then [] else [s.next_db_handle]),
   h.stmtAllocs ++ (if s2.next_stmt_handle = s.next_stmt_handle then [] else [s.next_stmt_handle]),
   h.stringAllocs ++ (if s2.next_string_handle = s.next_string_handle then [] else [s.next_string_handle])⟩

/-- Reachability instrumented with the allocation history. -/
inductive ReachHist : BridgeState → AllocHistory → Prop where
  | init : ReachHist initialState ⟨[], [], []⟩
  | step (op : BridgeOp) (env : Env) (args : List PhasorValue)
      {s : BridgeState} {h : AllocHistory} :
      ReachHist s h →
      ReachHist (applyOp op env s args).1 (stepAllocs s (applyOp op env s args).1 h)

/-! ### Table lemmas -/

theorem lookupTable_cons_none {α : Type} {k2 : Int} {v : α} {rest : Table α} {k : Int}
    (h : lookupTable ((k2, v) :: rest) k = none) :
    k2 ≠ k ∧ lookupTable rest k = none := by
  by_cases he : k2 = k <;> simp [lookupTable, he] at h ⊢
  exact h

theorem lookupTable_none_erase {α : Type} (t : Table α) (j k : Int)
    (h : lookupTable t k = none) : lookupTable (eraseTable t j) k = none := by
  induction t with
  | nil => rfl
  | cons p rest ih =>
    obtain ⟨k2, v2⟩ := p
    obtain ⟨hne, hrest⟩ := lookupTable_cons_none h
    by_cases he : k2 = j
    · simpa [eraseTable, he] using hrest
    · simpa [eraseTable, he, lookupTable, hne] using ih hrest

theorem lookupTable_none_insert {α : Type} (t : Table α) (n k : Int) (v : α)
    (hne : n ≠ k) (h : lookupTable t k = none) :
    lookupTable (insertTable t n v) k = none := by
  induction t with
  | nil => simp [insertTable, lookupTable, hne]
  | cons p rest ih =>
    obtain ⟨k2, v2⟩ := p
    obtain ⟨hne2, hrest⟩ := lookupTable_cons_none h
    by_cases he : k2 = n
    · simp [insertTable, he, lookupTable, hne, hrest]
    · simp [insertTable, he, lookupTable, hne2, ih hrest]

theorem lookupTable_insert_self {α : Type} (t : Table α) (k : Int) (v : α) :
    lookupTable (insertTable t k v) k = some v := by
  induction t with
  | nil => simp [insertTable, lookupTable]
  | cons p rest ih =>
    obtain ⟨k2, v2⟩ := p
    by_cases he : k2 = k
    · simp [insertTable, he, lookupTable]
    · simp [insertTable, he, lookupTable, ih]

theorem eraseTable_insertTable {α : Type} (t : Table α) (k : Int) (v : α)
    (h : lookupTable t k = none) : eraseTable (insertTable t k v) k = t := by
  induction t with
  | nil => simp [insertTable, eraseTable]
  | cons p rest ih =>
    obtain ⟨k2, v2⟩ := p
    obtain ⟨hne, hrest⟩ := lookupTable_cons_none h
    simp [insertTable, hne, eraseTable, ih hrest]

theorem eraseTable_of_none {α : Type} (t : Table α) (k : Int)
    (h : lookupTable t k = none) : eraseTable t k = t := by
  induction t with
  | nil => rfl
  | cons p rest ih =>
    obtain ⟨k2, v2⟩ := p
    obtain ⟨hne, hrest⟩ := lookupTable_cons_none h
    simp [eraseTable, hne, ih hrest]

theorem length_insertTable_of_none {α : Type} (t : Table α) (k : Int) (v : α)
    (h : lookupTable t k = none) : (insertTable t k v).length = t.length + 1 := by
  induction t with
  | nil => rfl
  | cons p rest ih =>
    obtain ⟨k2, v2⟩ := p
    obtain ⟨hne, hrest⟩ := lookupTable_cons_none h
    simp [insertTable, hne, ih hrest]

theorem length_eraseTable_of_some {α : Type} (t : Table α) (k : Int) (v : α)
    (h : lookupTable t k = some v) : (eraseTable t k).length + 1 = t.length := by
  induction t with
  | nil => simp [lookupTable] at h
  | cons p rest ih =>
    obtain ⟨k2, v2⟩ := p
    by_cases he : k2 = k
    · simp [eraseTable, he]
    · simp only [lookupTable, if_neg he] at h
      simp [eraseTable, he, ih h]

theorem mem_eraseTable {α : Type} {t : Table α} {j : Int} {p : Int × α}
    (h : p ∈ eraseTable t j) : p ∈ t := by
  induction t with
  | nil => simp [eraseTable] at h
  | cons q rest ih =>
    obtain ⟨k2, v2⟩ := q
    by_cases he : k2 = j
    · simp only [eraseTable, if_pos he] at h
      exact List.mem_cons_of_mem _ h
    · simp only [eraseTable, if_neg he, List.mem_cons] at h
      rcases h with h | h
      · exact h ▸ List.mem_cons_self _ _
      · exact List.mem_cons_of_mem _ (ih h)

theorem mem_insertTable {α : Type} {t : Table α} {n : Int} {v : α} {p : Int × α}
    (h : p ∈ insertTable t n v) : p ∈ t ∨ p.1 = n := by
  induction t with
  | nil =>
    simp only [insertTable, List.mem_singleton] at h
    exact Or.inr (by rw [h])
  | cons q rest ih =>
    obtain ⟨k2, v2⟩ := q
    by_cases he : k2 = n
    · simp only [insertTable, if_pos he, List.mem_cons] at h
      rcases h with h | h
      · exact Or.inr (by rw [h])
      · exact Or.inl (List.mem_cons_of_mem _ h)
    · simp only [insertTable, if_neg he, List.mem_cons] at h
      rcases h with h | h
      · exact Or.inl (h ▸ List.mem_cons_self _ _)
      · rcases ih h with h2 | h2
        · exact Or.inl (List.mem_cons_of_mem _ h2)
        · exact Or.inr h2

theorem lookupTable_none_of_bound {α : Type} (t : Table α) (n : Int)
    (h : ∀ k v, (k, v) ∈ t → k < n) : lookupTable t n = none := by
  induction t with
  | nil => rfl
  | cons q rest ih =>
    obtain ⟨k2, v2⟩ := q
    have hk2 : k2 < n := h k2 v2 (List.mem_cons_self _ _)
    have hne : k2 ≠ n := by omega
    simp only [lookupTable, if_neg hne]
    exact ih fun k v hm => h k v (List.mem_cons_of_mem _ hm)

/-! ### Per-operation state evolution -/

/-- How one registry space can change across one bridge call: either the
counter is untouched and the table is the same or has one key erased, or
the counter is bumped by one and the old counter value is inserted. -/
def spaceStep {α : Type} (t t2 : Table α) (n n2 : Int) : Prop :=
  (n2 = n ∧ (t2 = t ∨ ∃ k, t2 = eraseTable t k)) ∨
  (n2 = n + 1 ∧ ∃ v, t2 = insertTable t n v)

/-- All three registry spaces evolve by spaceStep across one bridge call. -/
def stateStep (s s2 : BridgeState) : Prop :=
  spaceStep s.db_table s2.db_table s.next_db_handle s2.next_db_handle ∧
  spaceStep s.stmt_table s2.stmt_table s.next_stmt_handle s2.next_stmt_handle ∧
  spaceStep s.string_table s2.string_table s.next_string_handle s2.next_string_handle

theorem spaceStep_refl {α : Type} (t : Table α) (n : Int) : spaceStep t t n n :=
  Or.inl ⟨rfl, Or.inl rfl⟩

theorem stateStep_refl (s : BridgeState) : stateStep s s :=
  ⟨spaceStep_refl _ _, spaceStep_refl _ _, spaceStep_refl _ _⟩

theorem sqlite_open_stateStep (env : Env) (s : BridgeState) (args : List PhasorValue) :
    stateStep s (sqlite_open env s args).1 := by
  match args with
  | [] => exact stateStep_refl s
  | a0 :: a1 :: rest => exact stateStep_refl s
  | [a0] =>
    cases a0 with
    | string str =>
      simp only [sqlite_open, phasor_is_string, if_true, phasor_to_string]
      cases env.openResult str with
      | some db =>
        exact ⟨Or.inr ⟨rfl, db, rfl⟩, spaceStep_refl _ _, spaceStep_refl _ _⟩
      | none => exact stateStep_refl s
    | null => exact stateStep_refl s
    | bool b => exact stateStep_refl s
    | int i => exact stateStep_refl s
    | float f => exact stateStep_refl s

theorem sqlite_close_stateStep (env : Env) (s : BridgeState) (args : List PhasorValue) :
    stateStep s (sqlite_close env s args).1 := by
  match args with
  | [] => exact stateStep_refl s
  | a0 :: a1 :: rest => exact stateStep_refl s
  | [a0] =>
    cases a0 with
    | int i =>
      simp only [sqlite_close, phasor_is_int, if_true, phasor_to_int]
      cases lookupTable s.db_table (toInt32 i) with
      | some db =>
        exact ⟨Or.inl ⟨rfl, Or.inr ⟨toInt32 i, rfl⟩⟩, spaceStep_refl _ _, spaceStep_refl _ _⟩
      | none => exact stateStep_refl s
    | null => exact stateStep_refl s
    | bool b => exact stateStep_refl s
    | float f => exact stateStep_refl s
    | string str => exact stateStep_refl s

theorem sqlite_exec_state (env : Env) (s : BridgeState) (args : List PhasorValue) :
    (sqlite_exec env s args).1 = s := by
  match args with
  | [] => rfl
  | [a0] => rfl
  | a0 :: a1 :: a2 :: rest => rfl
  | [a0, a1] =>
    cases a0 with
    | int i =>
      cases a1 with
      | string str =>
        simp only [sqlite_exec, phasor_is_int, phasor_is_string, Bool.and_self,
          if_true, phasor_to_int, phasor_to_string]
        cases get_db s (toInt32 i) with
        | some db => cases h2 : env.execOk db str <;> simp [h2]
        | none => rfl
      | null => rfl
      | bool b => rfl
      | int j => rfl
      | float f => rfl
    | null => rfl
    | bool b => rfl
    | float f => rfl
    | string str => rfl

theorem sqlite_step_state (env : Env) (s : BridgeState) (args : List PhasorValue) :
    (sqlite_step env s args).1 = s := by
  match args with
  | [] => rfl
  | a0 :: a1 :: rest => rfl
  | [a0] =>
    cases a0 with
    | int i =>
      simp only [sqlite_step, phasor_is_int, if_true, phasor_to_int]
      cases get_stmt s (toInt32 i) with
      | some stmt => cases h2 : env.stepResult stmt <;> simp [h2]
      | none => rfl
    | null => rfl
    | bool b => rfl
    | float f => rfl
    | string str => rfl

theorem sqlite_prepare_stateStep (env : Env) (s : BridgeState) (args : List PhasorValue) :
    stateStep s (sqlite_prepare env s args).1 := by
  match args with
  | [] => exact stateStep_refl s
  | [a0] => exact stateStep_refl s
  | a0 :: a1 :: a2 :: rest => exact stateStep_refl s
  | [a0, a1] =>
    cases a0 with
    | int i =>
      cases a1 with
      | string str =>
        simp only [sqlite_prepare, phasor_is_int, phasor_is_string, Bool.and_self,
          if_true, phasor_to_int, phasor_to_string]
        cases get_db s (toInt32 i) with
        | some db =>
          dsimp only
          cases env.prepareResult db str with
          | some stmt =>
            exact ⟨spaceStep_refl _ _, Or.inr ⟨rfl, stmt, rfl⟩, spaceStep_refl _ _⟩
          | none => exact stateStep_refl s
        | none => exact stateStep_refl s
      | null => exact stateStep_refl s
      | bool b => exact stateStep_refl s
      | int j => exact stateStep_refl s
      | float f => exact stateStep_refl s
    | null => exact stateStep_refl s
    | bool b => exact stateStep_refl s
    | float f => exact stateStep_refl s
    | string str => exact stateStep_refl s

theorem sqlite_column_stateStep (env : Env) (s : BridgeState) (args : List PhasorValue) :
    stateStep s (sqlite_column env s args).1 := by
  match args with
  | [] => exact stateStep_refl s
  | [a0] => exact stateStep_refl s
  | a0 :: a1 :: a2 :: rest => exact stateStep_refl s
  | [a0, a1] =>
    cases a0 with
    | int i =>
      cases a1 with
      | int j =>
        simp only [sqlite_column, phasor_is_int, Bool.and_self, if_true, phasor_to_int]
        cases get_stmt s (toInt32 i) with
        | some stmt =>
          by_cases hb : toInt32 j < 0 ∨ env.columnCount stmt ≤ toInt32 j
          · have hb2 : (decide (toInt32 j < 0) || decide (env.columnCount stmt ≤ toInt32 j)) = true := by
              simpa using hb
            simp only [hb2, if_true]
            exact stateStep_refl s
          · have hb2 : (decide (toInt32 j < 0) || decide (env.columnCount stmt ≤ toInt32 j)) = false := by
              simpa using not_or.mp hb
            simp only [hb2, Bool.false_eq_true, if_false]
            cases env.columnType stmt (toInt32 j) with
            | integer => exact stateStep_refl s
            | float => exact stateStep_refl s
            | text =>
              exact ⟨spaceStep_refl _ _, spaceStep_refl _ _,
                Or.inr ⟨rfl, env.columnText stmt (toInt32 j), rfl⟩⟩
            | nullType => exact stateStep_refl s
            | blob => exact stateStep_refl s
        | none => exact stateStep_refl s
      | null => exact stateStep_refl s
      | bool b => exact stateStep_refl s
      | float f => exact stateStep_refl s
      | string str => exact stateStep_refl s
    | null => exact stateStep_refl s
    | bool b => exact stateStep_refl s
    | float f => exact stateStep_refl s
    | string str => exact stateStep_refl s

theorem sqlite_finalize_stateStep (env : Env) (s : BridgeState) (args : List PhasorValue) :
    stateStep s (sqlite_finalize env s args).1 := by
  match args with
  | [] => exact stateStep_refl s
  | a0 :: a1 :: rest => exact stateStep_refl s
  | [a0] =>
    cases a0 with
    | int i =>
      simp only [sqlite_finalize, phasor_is_int, if_true, phasor_to_int]
      cases lookupTable s.stmt_table (toInt32 i) with
      | some stmt =>
        exact ⟨spaceStep_refl _ _, Or.inl ⟨rfl, Or.inr ⟨toInt32 i, rfl⟩⟩, spaceStep_refl _ _⟩
      | none => exact stateStep_refl s
    | null => exact stateStep_refl s
    | bool b => exact stateStep_refl s
    | float f => exact stateStep_refl s
    | string str => exact stateStep_refl s

theorem sqlite_free_string_stateStep (env : Env) (s : BridgeState) (args : List PhasorValue) :
    stateStep s (sqlite_free_string env s args).1 := by
  match args with
  | [] => exact stateStep_refl s
  | a0 :: a1 :: rest => exact stateStep_refl s
  | [a0] =>
    cases a0 with
    | int i =>
      exact ⟨spaceStep_refl _ _, spaceStep_refl _ _,
        Or.inl ⟨rfl, Or.inr ⟨toInt32 i, rfl⟩⟩⟩
    | null => exact stateStep_refl s
    | bool b => exact stateStep_refl s
    | float f => exact stateStep_refl s
    | string str => exact stateStep_refl s

theorem applyOp_stateStep (op : BridgeOp) (env : Env) (s : BridgeState)
    (args : List PhasorValue) : stateStep s (applyOp op env s args).1 := by
  cases op with
  | openOp => exact sqlite_open_stateStep env s args
  | closeOp => exact sqlite_close_stateStep env s args
  | execOp =>
    show stateStep s (sqlite_exec env s args).1
    rw [sqlite_exec_state env s args]
    exact stateStep_refl s
  | prepareOp => exact sqlite_prepare_stateStep env s args
  | stepOp =>
    show stateStep s (sqlite_step env s args).1
    rw [sqlite_step_state env s args]
    exact stateStep_refl s
  | columnOp => exact sqlite_column_stateStep env s args
  | finalizeOp => exact sqlite_finalize_stateStep env s args
  | freeStringOp => exact sqlite_free_string_stateStep env s args

theorem spaceStep_counter_le {α : Type} {t t2 : Table α} {n n2 : Int}
    (h : spaceStep t t2 n n2) : n ≤ n2 := by
  rcases h with ⟨h1, _⟩ | ⟨h1, _⟩ <;> omega

theorem spaceStep_none_preserved {α : Type} {t t2 : Table α} {n n2 k : Int}
    (h : spaceStep t t2 n n2) (hk : k < n) (hl : lookupTable t k = none) :
    k < n2 ∧ lookupTable t2 k = none := by
  rcases h with ⟨h1, h2 | ⟨j, h2⟩⟩ | ⟨h1, v, h2⟩
  · exact ⟨by omega, h2 ▸ hl⟩
  · exact ⟨by omega, h2 ▸ lookupTable_none_erase t j k hl⟩
  · exact ⟨by omega, h2 ▸ lookupTable_none_insert t n k v (by omega) hl⟩

theorem spaceStep_bound_preserved {α : Type} {t t2 : Table α} {n n2 : Int}
    (h : spaceStep t t2 n n2) (hb : ∀ k v, (k, v) ∈ t → k < n) :
    ∀ k v, (k, v) ∈ t2 → k < n2 := by
  intro k v hm
  rcases h with ⟨h1, h2 | ⟨j, h2⟩⟩ | ⟨h1, w, h2⟩
  · exact h1 ▸ hb k v (h2 ▸ hm)
  · exact h1 ▸ hb k v (mem_eraseTable (h2 ▸ hm))
  · rcases mem_insertTable (h2 ▸ hm) with hm2 | hm2
    · have := hb k v hm2
      omega
    · simp only at hm2
      omega

theorem spaceStep_hist {α : Type} {t t2 : Table α} {n n2 : Int} {allocs : List Int}
    (h : spaceStep t t2 n n2) (hb : ∀ k ∈ allocs, k < n) :
    ∀ k ∈ allocs ++ (if n2 = n then [] else [n]), k < n2 := by
  intro k hk
  rcases List.mem_append.1 hk with hk2 | hk2
  · exact lt_of_lt_of_le (hb k hk2) (spaceStep_counter_le h)
  · by_cases he : n2 = n
    · rw [if_pos he] at hk2
      simp at hk2
    · rw [if_neg he] at hk2
      have hkn : k = n := by simpa using hk2
      rcases h with ⟨h1, _⟩ | ⟨h1, _⟩
      · exact absurd h1 he
      · omega

/-- Bound invariant: every key in a registry table is below the counter of
its space. -/
def tablesBounded (s : BridgeState) : Prop :=
  (∀ k v, (k, v) ∈ s.db_table → k < s.next_db_handle) ∧
  (∀ k v, (k, v) ∈ s.stmt_table → k < s.next_stmt_handle) ∧
  (∀ k v, (k, v) ∈ s.string_table → k < s.next_string_handle)

theorem reach_bounded {s : BridgeState} (h : Reach s) : tablesBounded s := by
  induction h with
  | init =>
    refine ⟨?_, ?_, ?_⟩ <;> intro k v hm <;> simp [initialState] at hm
  | step op env args hr ih =>
    obtain ⟨h1, h2, h3⟩ := applyOp_stateStep op env _ args
    exact ⟨spaceStep_bound_preserved h1 ih.1,
      spaceStep_bound_preserved h2 ih.2.1,
      spaceStep_bound_preserved h3 ih.2.2⟩

theorem reach_fresh_db {s : BridgeState} (h : Reach s) :
    lookupTable s.db_table s.next_db_handle = none :=
  lookupTable_none_of_bound _ _ (reach_bounded h).1

theorem reach_fresh_stmt {s : BridgeState} (h : Reach s) :
    lookupTable s.stmt_table s.next_stmt_handle = none :=
  lookupTable_none_of_bound _ _ (reach_bounded h).2.1

theorem reach_fresh_string {s : BridgeState} (h : Reach s) :
    lookupTable s.string_table s.next_string_handle = none :=
  lookupTable_none_of_bound _ _ (reach_bounded h).2.2

theorem reachHist_bound {s : BridgeState} {h : AllocHistory} (hr : ReachHist s h) :
    (∀ k ∈ h.dbAllocs, k < s.next_db_handle) ∧
    (∀ k ∈ h.stmtAllocs, k < s.next_stmt_handle) ∧
    (∀ k ∈ h.stringAllocs, k < s.next_string_handle) := by
  induction hr with
  | init =>
    refine ⟨?_, ?_, ?_⟩ <;> intro k hk <;> simp at hk
  | step op env args hr ih =>
    obtain ⟨h1, h2, h3⟩ := applyOp_stateStep op env _ args
    exact ⟨spaceStep_hist h1 ih.1, spaceStep_hist h2 ih.2.1, spaceStep_hist h3 ih.2.2⟩

theorem reachFrom_none_db {s s2 : BridgeState} (h : ReachFrom s s2) (k : Int)
    (hk : k < s.next_db_handle) (hl : lookupTable s.db_table k = none) :
    k < s2.next_db_handle ∧ lookupTable s2.db_table k = none := by
  induction h with
  | refl s => exact ⟨hk, hl⟩
  | step op env args h ih =>
    obtain ⟨ih1, ih2⟩ := ih hk hl
    exact spaceStep_none_preserved (applyOp_stateStep op env _ args).1 ih1 ih2

theorem reachFrom_none_stmt {s s2 : BridgeState} (h : ReachFrom s s2) (k : Int)
    (hk : k < s.next_stmt_handle) (hl : lookupTable s.stmt_table k = none) :
    k < s2.next_stmt_handle ∧ lookupTable s2.stmt_table k = none := by
  induction h with
  | refl s => exact ⟨hk, hl⟩
  | step op env args h ih =>
    obtain ⟨ih1, ih2⟩ := ih hk hl
    exact spaceStep_none_preserved (applyOp_stateStep op env _ args).2.1 ih1 ih2

theorem reachFrom_none_string {s s2 : BridgeState} (h : ReachFrom s s2) (k : Int)
    (hk : k < s.next_string_handle) (hl : lookupTable s.string_table k = none) :
    k < s2.next_string_handle ∧ lookupTable s2.string_table k = none := by
  induction h with
  | refl s => exact ⟨hk, hl⟩
  | step op env args h ih =>
    obtain ⟨ih1, ih2⟩ := ih hk hl
    exact spaceStep_none_preserved (applyOp_stateStep op env _ args).2.2 ih1 ih2

/-! ### Arithmetic of the int cast -/

theorem toInt32_add_two_pow (v : Int) : toInt32 (v + 2 ^ 32) = toInt32 v := by
  unfold toInt32
  omega

theorem toInt32_eq_self {v : Int} (hlo : -(2 ^ 31) ≤ v) (hhi : v < 2 ^ 31) :
    toInt32 v = v := by
  unfold toInt32
  omega

/-! ### Concrete fixtures for witnesses and counterexamples -/

def db0 : NativeDb := ⟨0⟩

def stmt0 : NativeStmt := ⟨0⟩

/-- A concrete native engine: open and prepare always succeed, exec
succeeds, step reports a row, every statement has two columns, and column
reads see an integer column whose native 64-bit value is 2 to the 32. -/
def env0 : Env :=
  ⟨fun _ => some db0,
   fun _ _ => true,
   fun _ _ => some stmt0,
   fun _ => .row,
   fun _ => 2,
   fun _ _ => .integer,
   fun _ _ => 4294967296,
   fun _ _ => ⟨0⟩,
   fun _ _ => "x"⟩

/-- A concrete bridge state with one live entry in each registry. -/
def stateA : BridgeState :=
  ⟨[(1, db0)], [(1, stmt0)], [(1, "hello")], 2, 2, 2⟩

/-! ### Bad argument shapes short-circuit -/

theorem sqlite_open_bad (env : Env) (s : BridgeState) (args : List PhasorValue)
    (h : open_shape args = false) : sqlite_open env s args = (s, .null, []) := by
  match args with
  | [] => rfl
  | a0 :: a1 :: rest => rfl
  | [a0] => cases a0 <;> simp_all [open_shape, phasor_is_string, sqlite_open]

theorem sqlite_close_bad (env : Env) (s : BridgeState) (args : List PhasorValue)
    (h : one_int_shape args = false) : sqlite_close env s args = (s, .bool false, []) := by
  match args with
  | [] => rfl
  | a0 :: a1 :: rest => rfl
  | [a0] => cases a0 <;> simp_all [one_int_shape, phasor_is_int, sqlite_close]

theorem sqlite_exec_bad (env : Env) (s : BridgeState) (args : List PhasorValue)
    (h : exec_shape args = false) : sqlite_exec env s args = (s, .bool false, []) := by
  match args with
  | [] => rfl
  | [a0] => rfl
  | a0 :: a1 :: a2 :: rest => rfl
  | [a0, a1] =>
    cases a0 <;> cases a1 <;>
      simp_all [exec_shape, phasor_is_int, phasor_is_string, sqlite_exec]

theorem sqlite_prepare_bad (env : Env) (s : BridgeState) (args : List PhasorValue)
    (h : exec_shape args = false) : sqlite_prepare env s args = (s, .null, []) := by
  match args with
  | [] => rfl
  | [a0] => rfl
  | a0 :: a1 :: a2 :: rest => rfl
  | [a0, a1] =>
    cases a0 <;> cases a1 <;>
      simp_all [exec_shape, phasor_is_int, phasor_is_string, sqlite_prepare]

theorem sqlite_step_bad (env : Env) (s : BridgeState) (args : List PhasorValue)
    (h : one_int_shape args = false) : sqlite_step env s args = (s, .null, []) := by
  match args with
  | [] => rfl
  | a0 :: a1 :: rest => rfl
  | [a0] => cases a0 <;> simp_all [one_int_shape, phasor_is_int, sqlite_step]

theorem sqlite_column_bad (env : Env) (s : BridgeState) (args : List PhasorValue)
    (h : column_shape args = false) : sqlite_column env s args = (s, .null, []) := by
  match args with
  | [] => rfl
  | [a0] => rfl
  | a0 :: a1 :: a2 :: rest => rfl
  | [a0, a1] =>
    cases a0 <;> cases a1 <;>
      simp_all [column_shape, phasor_is_int, sqlite_column]

theorem sqlite_finalize_bad (env : Env) (s : BridgeState) (args : List PhasorValue)
    (h : one_int_shape args = false) : sqlite_finalize env s args = (s, .bool false, []) := by
  match args with
  | [] => rfl
  | a0 :: a1 :: rest => rfl
  | [a0] => cases a0 <;> simp_all [one_int_shape, phasor_is_int, sqlite_finalize]

theorem sqlite_free_string_bad (env : Env) (s : BridgeState) (args : List PhasorValue)
    (h : one_int_shape args = false) : sqlite_free_string env s args = (s, .null, []) := by
  match args with
  | [] => rfl
  | a0 :: a1 :: rest => rfl
  | [a0] => cases a0 <;> simp_all [one_int_shape, phasor_is_int, sqlite_free_string]

/-- C2: for every bridge operation, an argument list with wrong count or a
wrong tag on any parameter returns the documented failure value (null for
open, prepare, step, column and free_string; false for close, exec and
finalize), performs no native engine call (empty native trace), and leaves
the whole bridge state, all three tables and counters included, unchanged. -/
theorem C2_bad_args_short_circuit (env : Env) (s : BridgeState) (args : List PhasorValue) :
    (open_shape args = false → sqlite_open env s args = (s, .null, [])) ∧
    (one_int_shape args = false → sqlite_close env s args = (s, .bool false, [])) ∧
    (exec_shape args = false → sqlite_exec env s args = (s, .bool false, [])) ∧
    (exec_shape args = false → sqlite_prepare env s args = (s, .null, [])) ∧
    (one_int_shape args = false → sqlite_step env s args = (s, .null, [])) ∧
    (column_shape args = false → sqlite_column env s args = (s, .null, [])) ∧
    (one_int_shape args = false → sqlite_finalize env s args = (s, .bool false, [])) ∧
    (one_int_shape args = false → sqlite_free_string env s args = (s, .null, [])) :=
  ⟨sqlite_open_bad env s args, sqlite_close_bad env s args, sqlite_exec_bad env s args,
   sqlite_prepare_bad env s args, sqlite_step_bad env s args, sqlite_column_bad env s args,
   sqlite_finalize_bad env s args, sqlite_free_string_bad env s args⟩

/-- Witness for C2 at the concrete empty argument list (wrong count for
every operation): each operation returns its failure value, makes no native
call, and leaves the state untouched. -/
theorem C2_bad_args_short_circuit_witness :
    sqlite_open env0 stateA [] = (stateA, .null, []) ∧
    sqlite_close env0 stateA [] = (stateA, .bool false, []) ∧
    sqlite_exec env0 stateA [] = (stateA, .bool false, []) ∧
    sqlite_prepare env0 stateA [] = (stateA, .null, []) ∧
    sqlite_step env0 stateA [] = (stateA, .null, []) ∧
    sqlite_column env0 stateA [] = (stateA, .null, []) ∧
    sqlite_finalize env0 stateA [] = (stateA, .bool false, []) ∧
    sqlite_free_string env0 stateA [] = (stateA, .null, []) := by
  obtain ⟨h1, h2, h3, h4, h5, h6, h7, h8⟩ := C2_bad_args_short_circuit env0 stateA []
  exact ⟨h1 rfl, h2 rfl, h3 rfl, h4 rfl, h5 rfl, h6 rfl, h7 rfl, h8 rfl⟩

/-- C10: every handle-taking bridge operation first casts its 64-bit
integer argument to the C int type, so the operation is invariant under
adding 2 to the 32 to any integer argument; a suitably chosen large
argument therefore resolves to the same registry entry as a small live
handle. -/
theorem C10_arguments_truncated (env : Env) (s : BridgeState) (v i : Int) (sql : String) :
    toInt32 (v + 2 ^ 32) = toInt32 v ∧
    sqlite_close env s [.int (v + 2 ^ 32)] = sqlite_close env s [.int v] ∧
    sqlite_exec env s [.int (v + 2 ^ 32), .string sql] =
      sqlite_exec env s [.int v, .string sql] ∧
    sqlite_prepare env s [.int (v + 2 ^ 32), .string sql] =
      sqlite_prepare env s [.int v, .string sql] ∧
    sqlite_step env s [.int (v + 2 ^ 32)] = sqlite_step env s [.int v] ∧
    sqlite_column env s [.int (v + 2 ^ 32), .int i] = sqlite_column env s [.int v, .int i] ∧
    sqlite_column env s [.int i, .int (v + 2 ^ 32)] = sqlite_column env s [.int i, .int v] ∧
    sqlite_finalize env s [.int (v + 2 ^ 32)] = sqlite_finalize env s [.int v] ∧
    sqlite_free_string env s [.int (v + 2 ^ 32)] = sqlite_free_string env s [.int v] := by
  refine ⟨toInt32_add_two_pow v, ?_, ?_, ?_, ?_, ?_, ?_, ?_, ?_⟩ <;>
    simp only [sqlite_close, sqlite_exec, sqlite_prepare, sqlite_step, sqlite_column,
      sqlite_finalize, sqlite_free_string, phasor_is_int, phasor_is_string,
      phasor_to_int, phasor_to_string, toInt32_add_two_pow]

/-! ### Frame lemmas: each operation leaves the other spaces untouched -/

theorem sqlite_close_frame (env : Env) (s : BridgeState) (args : List PhasorValue) :
    (sqlite_close env s args).1.stmt_table = s.stmt_table ∧
    (sqlite_close env s args).1.string_table = s.string_table ∧
    (sqlite_close env s args).1.next_stmt_handle = s.next_stmt_handle ∧
    (sqlite_close env s args).1.next_string_handle = s.next_string_handle := by
  match args with
  | [] => exact ⟨rfl, rfl, rfl, rfl⟩
  | a0 :: a1 :: rest => exact ⟨rfl, rfl, rfl, rfl⟩
  | [a0] =>
    cases a0 with
    | int i =>
      simp only [sqlite_close, phasor_is_int, if_true, phasor_to_int]
      cases lookupTable s.db_table (toInt32 i) with
      | some db => exact ⟨rfl, rfl, rfl, rfl⟩
      | none => exact ⟨rfl, rfl, rfl, rfl⟩
    | null => exact ⟨rfl, rfl, rfl, rfl⟩
    | bool b => exact ⟨rfl, rfl, rfl, rfl⟩
    | float f => exact ⟨rfl, rfl, rfl, rfl⟩
    | string str => exact ⟨rfl, rfl, rfl, rfl⟩

theorem sqlite_open_frame (env : Env) (s : BridgeState) (args : List PhasorValue) :
    (sqlite_open env s args).1.stmt_table = s.stmt_table ∧
    (sqlite_open env s args).1.string_table = s.string_table ∧
    (sqlite_open env s args).1.next_stmt_handle = s.next_stmt_handle ∧
    (sqlite_open env s args).1.next_string_handle = s.next_string_handle := by
  match args with
  | [] => exact ⟨rfl, rfl, rfl, rfl⟩
  | a0 :: a1 :: rest => exact ⟨rfl, rfl, rfl, rfl⟩
  | [a0] =>
    cases a0 with
    | string str =>
      simp only [sqlite_open, phasor_is_string, if_true, phasor_to_string]
      cases env.openResult str with
      | some db => exact ⟨rfl, rfl, rfl, rfl⟩
      | none => exact ⟨rfl, rfl, rfl, rfl⟩
    | null => exact ⟨rfl, rfl, rfl, rfl⟩
    | bool b => exact ⟨rfl, rfl, rfl, rfl⟩
    | int i => exact ⟨rfl, rfl, rfl, rfl⟩
    | float f => exact ⟨rfl, rfl, rfl, rfl⟩

theorem sqlite_prepare_frame (env : Env) (s : BridgeState) (args : List PhasorValue) :
    (sqlite_prepare env s args).1.db_table = s.db_table ∧
    (sqlite_prepare env s args).1.string_table = s.string_table ∧
    (sqlite_prepare env s args).1.next_db_handle = s.next_db_handle ∧
    (sqlite_prepare env s args).1.next_string_handle = s.next_string_handle := by
  match args with
  | [] => exact ⟨rfl, rfl, rfl, rfl⟩
  | [a0] => exact ⟨rfl, rfl, rfl, rfl⟩
  | a0 :: a1 :: a2 :: rest => exact ⟨rfl, rfl, rfl, rfl⟩
  | [a0, a1] =>
    cases a0 with
    | int i =>
      cases a1 with
      | string str =>
        simp only [sqlite_prepare, phasor_is_int, phasor_is_string, Bool.and_self,
          if_true, phasor_to_int, phasor_to_string]
        cases get_db s (toInt32 i) with
        | some db =>
          dsimp only
          cases env.prepareResult db str with
          | some stmt => exact ⟨rfl, rfl, rfl, rfl⟩
          | none => exact ⟨rfl, rfl, rfl, rfl⟩
        | none => exact ⟨rfl, rfl, rfl, rfl⟩
      | null => exact ⟨rfl, rfl, rfl, rfl⟩
      | bool b => exact ⟨rfl, rfl, rfl, rfl⟩
      | int j => exact ⟨rfl, rfl, rfl, rfl⟩
      | float f => exact ⟨rfl, rfl, rfl, rfl⟩
    | null => exact ⟨rfl, rfl, rfl, rfl⟩
    | bool b => exact ⟨rfl, rfl, rfl, rfl⟩
    | float f => exact ⟨rfl, rfl, rfl, rfl⟩
    | string str => exact ⟨rfl, rfl, rfl, rfl⟩

theorem sqlite_column_frame (env : Env) (s : BridgeState) (args : List PhasorValue) :
    (sqlite_column env s args).1.db_table = s.db_table ∧
    (sqlite_column env s args).1.stmt_table = s.stmt_table ∧
    (sqlite_column env s args).1.next_db_handle = s.next_db_handle ∧
    (sqlite_column env s args).1.next_stmt_handle = s.next_stmt_handle := by
  match args with
  | [] => exact ⟨rfl, rfl, rfl, rfl⟩
  | [a0] => exact ⟨rfl, rfl, rfl, rfl⟩
  | a0 :: a1 :: a2 :: rest => exact ⟨rfl, rfl, rfl, rfl⟩
  | [a0, a1] =>
    cases a0 with
    | int i =>
      cases a1 with
      | int j =>
        simp only [sqlite_column, phasor_is_int, Bool.and_self, if_true, phasor_to_int]
        cases get_stmt s (toInt32 i) with
        | some stmt =>
          dsimp only
          by_cases hb : (decide (toInt32 j < 0) || decide (env.columnCount stmt ≤ toInt32 j)) = true
          · simp [hb]
          · simp only [eq_false_of_ne_true hb, Bool.false_eq_true, if_false]
            cases env.columnType stmt (toInt32 j) with
            | integer => exact ⟨rfl, rfl, rfl, rfl⟩
            | float => exact ⟨rfl, rfl, rfl, rfl⟩
            | text => exact ⟨rfl, rfl, rfl, rfl⟩
            | nullType => exact ⟨rfl, rfl, rfl, rfl⟩
            | blob => exact ⟨rfl, rfl, rfl, rfl⟩
        | none => exact ⟨rfl, rfl, rfl, rfl⟩
      | null => exact ⟨rfl, rfl, rfl, rfl⟩
      | bool b => exact ⟨rfl, rfl, rfl, rfl⟩
      | float f => exact ⟨rfl, rfl, rfl, rfl⟩
      | string str => exact ⟨rfl, rfl, rfl, rfl⟩
    | null => exact ⟨rfl, rfl, rfl, rfl⟩
    | bool b => exact ⟨rfl, rfl, rfl, rfl⟩
    | float f => exact ⟨rfl, rfl, rfl, rfl⟩
    | string str => exact ⟨rfl, rfl, rfl, rfl⟩

theorem sqlite_finalize_frame (env : Env) (s : BridgeState) (args : List PhasorValue) :
    (sqlite_finalize env s args).1.db_table = s.db_table ∧
    (sqlite_finalize env s args).1.string_table = s.string_table ∧
    (sqlite_finalize env s args).1.next_db_handle = s.next_db_handle ∧
    (sqlite_finalize env s args).1.next_string_handle = s.next_string_handle := by
  match args with
  | [] => exact ⟨rfl, rfl, rfl, rfl⟩
  | a0 :: a1 :: rest => exact ⟨rfl, rfl, rfl, rfl⟩
  | [a0] =>
    cases a0 with
    | int i =>
      simp only [sqlite_finalize, phasor_is_int, if_true, phasor_to_int]
      cases lookupTable s.stmt_table (toInt32 i) with
      | some stmt => exact ⟨rfl, rfl, rfl, rfl⟩
      | none => exact ⟨rfl, rfl, rfl, rfl⟩
    | null => exact ⟨rfl, rfl, rfl, rfl⟩
    | bool b => exact ⟨rfl, rfl, rfl, rfl⟩
    | float f => exact ⟨rfl, rfl, rfl, rfl⟩
    | string str => exact ⟨rfl, rfl, rfl, rfl⟩

theorem sqlite_free_string_frame (env : Env) (s : BridgeState) (args : List PhasorValue) :
    (sqlite_free_string env s args).1.db_table = s.db_table ∧
    (sqlite_free_string env s args).1.stmt_table = s.stmt_table ∧
    (sqlite_free_string env s args).1.next_db_handle = s.next_db_handle ∧
    (sqlite_free_string env s args).1.next_stmt_handle = s.next_stmt_handle := by
  match args with
  | [] => exact ⟨rfl, rfl, rfl, rfl⟩
  | a0 :: a1 :: rest => exact ⟨rfl, rfl, rfl, rfl⟩
  | [a0] =>
    cases a0 with
    | int i => exact ⟨rfl, rfl, rfl, rfl⟩
    | null => exact ⟨rfl, rfl, rfl, rfl⟩
    | bool b => exact ⟨rfl, rfl, rfl, rfl⟩
    | float f => exact ⟨rfl, rfl, rfl, rfl⟩
    | string str => exact ⟨rfl, rfl, rfl, rfl⟩

/-- C5: sqlite_close never writes the statement table or the string table,
whatever its arguments and whatever the native engine does; every statement
handle resolves to exactly the same result after the close as before, so
closing a connection does not cascade invalidation into the other spaces. -/
theorem C5_close_leaves_other_spaces (env : Env) (s : BridgeState) (args : List PhasorValue) :
    (sqlite_close env s args).1.stmt_table = s.stmt_table ∧
    (sqlite_close env s args).1.string_table = s.string_table ∧
    ∀ h : Int, get_stmt (sqlite_close env s args).1 h = get_stmt s h := by
  obtain ⟨h1, h2, _, _⟩ := sqlite_close_frame env s args
  refine ⟨h1, h2, fun h => ?_⟩
  unfold get_stmt
  rw [h1]

theorem sqlite_free_string_null (env : Env) (s : BridgeState) (args : List PhasorValue) :
    (sqlite_free_string env s args).2.1 = PhasorValue.null := by
  match args with
  | [] => rfl
  | a0 :: a1 :: rest => rfl
  | [a0] => cases a0 <;> rfl

/-- C6: sqlite_step with a well-shaped argument list and a live statement
handle returns true when the native step reports a row, false when it
reports done, and null on any other native code; an unknown handle or a bad
argument shape returns null with no native call and no state change. -/
theorem C6_step_tristate (env : Env) (s : BridgeState) (x : Int) :
    (∀ stmt, get_stmt s (toInt32 x) = some stmt →
      (env.stepResult stmt = .row →
        sqlite_step env s [.int x] = (s, .bool true, [.stepCall stmt])) ∧
      (env.stepResult stmt = .done →
        sqlite_step env s [.int x] = (s, .bool false, [.stepCall stmt])) ∧
      (∀ code, env.stepResult stmt = .error code →
        sqlite_step env s [.int x] = (s, .null, [.stepCall stmt]))) ∧
    (get_stmt s (toInt32 x) = none → sqlite_step env s [.int x] = (s, .null, [])) ∧
    (∀ args, one_int_shape args = false → sqlite_step env s args = (s, .null, [])) := by
  refine ⟨?_, ?_, fun args h => sqlite_step_bad env s args h⟩
  · intro stmt hs
    refine ⟨fun hr => ?_, fun hd => ?_, fun code hc => ?_⟩
    · simp [sqlite_step, phasor_is_int, phasor_to_int, hs, hr]
    · simp [sqlite_step, phasor_is_int, phasor_to_int, hs, hd]
    · simp [sqlite_step, phasor_is_int, phasor_to_int, hs, hc]
  · intro h
    simp [sqlite_step, phasor_is_int, phasor_to_int, h]

/-- Witness for C6: in the concrete state with live statement handle 1 and
a native engine whose step reports a row, sqlite_step returns true. -/
theorem C6_step_tristate_witness :
    get_stmt stateA (toInt32 1) = some stmt0 ∧
    env0.stepResult stmt0 = StepOutcome.row ∧
    sqlite_step env0 stateA [.int 1] = (stateA, .bool true, [.stepCall stmt0]) := by
  refine ⟨by decide, rfl, ?_⟩
  exact ((C6_step_tristate env0 stateA 1).1 stmt0 (by decide)).1 rfl

/-- C7: sqlite_column on a live statement with a column index below 0 or at
least the native column count returns null, reads no column value (the only
native call is the column-count query), changes no registry table, and
behaves identically when repeated. -/
theorem C7_column_out_of_range (env : Env) (s : BridgeState) (x i : Int) (stmt : NativeStmt)
    (hs : get_stmt s (toInt32 x) = some stmt)
    (hb : toInt32 i < 0 ∨ env.columnCount stmt ≤ toInt32 i) :
    sqlite_column env s [.int x, .int i] = (s, .null, [.columnCountCall stmt]) ∧
    sqlite_column env (sqlite_column env s [.int x, .int i]).1 [.int x, .int i] =
      (s, .null, [.columnCountCall stmt]) := by
  have hb2 : (decide (toInt32 i < 0) || decide (env.columnCount stmt ≤ toInt32 i)) = true := by
    simpa using hb
  have h1 : sqlite_column env s [.int x, .int i] = (s, .null, [.columnCountCall stmt]) := by
    simp [sqlite_column, phasor_is_int, phasor_to_int, hs, hb2]
  refine ⟨h1, ?_⟩
  rw [h1]
  exact h1

/-- Witness for C7: index 5 against a two-column statement yields null with
only the count query in the native trace, twice in a row. -/
theorem C7_column_out_of_range_witness :
    get_stmt stateA (toInt32 1) = some stmt0 ∧
    (toInt32 5 < 0 ∨ env0.columnCount stmt0 ≤ toInt32 5) ∧
    sqlite_column env0 stateA [.int 1, .int 5] = (stateA, .null, [.columnCountCall stmt0]) := by
  refine ⟨by decide, by decide, ?_⟩
  exact (C7_column_out_of_range env0 stateA 1 5 stmt0 (by decide) (by decide)).1

/-- C8: sqlite_free_string always returns null, whatever the argument list;
it never touches the connection or statement table; with an integer handle
it erases the matching string entry, which is a no-op on the string table
when the handle is absent; with a bad argument shape it changes nothing. -/
theorem C8_free_string_total (env : Env) (s : BridgeState) (args : List PhasorValue) :
    (sqlite_free_string env s args).2.1 = PhasorValue.null ∧
    (sqlite_free_string env s args).1.db_table = s.db_table ∧
    (sqlite_free_string env s args).1.stmt_table = s.stmt_table ∧
    (∀ x, args = [PhasorValue.int x] →
      (sqlite_free_string env s args).1.string_table =
        eraseTable s.string_table (toInt32 x)) ∧
    (∀ x, args = [PhasorValue.int x] →
      lookupTable s.string_table (toInt32 x) = none →
      (sqlite_free_string env s args).1 = s) ∧
    (one_int_shape args = false → sqlite_free_string env s args = (s, .null, [])) := by
  obtain ⟨hf1, hf2, _, _⟩ := sqlite_free_string_frame env s args
  refine ⟨sqlite_free_string_null env s args, hf1, hf2, ?_, ?_, ?_⟩
  · intro x hx
    subst hx
    rfl
  · intro x hx hnone
    subst hx
    show free_string s (toInt32 x) = s
    unfold free_string
    rw [eraseTable_of_none _ _ hnone]
  · exact sqlite_free_string_bad env s args

/-- Witness for C8: freeing the live string handle 1 returns null and
erases exactly that entry; freeing the absent handle 7 is a no-op. -/
theorem C8_free_string_total_witness :
    (sqlite_free_string env0 stateA [.int 1]).2.1 = PhasorValue.null ∧
    (sqlite_free_string env0 stateA [.int 1]).1.string_table =
      eraseTable stateA.string_table (toInt32 1) ∧
    (sqlite_free_string env0 stateA [.int 7]).1 = stateA := by
  obtain ⟨h1, _, _, h4, _, _⟩ := C8_free_string_total env0 stateA [.int 1]
  obtain ⟨_, _, _, _, h5, _⟩ := C8_free_string_total env0 stateA [.int 7]
  exact ⟨h1, h4 1 rfl, h5 7 rfl (by decide)⟩

/-- C1 (refuted, code bug): the claim and the README Type Mapping table say
an integer column surfaces the native 64-bit value losslessly, but the code
reads it with sqlite3_column_int, which narrows to 32 bits.  Concretely:
statement handle 1 is live, column 0 has native type integer and native
64-bit value 2 to the 32, the column read is in range, yet sqlite_column
returns the integer tagged value 0, not 4294967296. -/
theorem C1_integer_column_narrowed :
    get_stmt stateA 1 = some stmt0 ∧
    env0.columnType stmt0 0 = ColType.integer ∧
    env0.columnInt64 stmt0 0 = 4294967296 ∧
    env0.columnCount stmt0 = 2 ∧
    (sqlite_column env0 stateA [.int 1, .int 0]).2.1 = PhasorValue.int 0 ∧
    PhasorValue.int 0 ≠ PhasorValue.int 4294967296 :=
  ⟨rfl, rfl, rfl, rfl, by decide, by decide⟩

/-! ### Success-path characterizations -/

theorem sqlite_open_success (env : Env) (s : BridgeState) (args : List PhasorValue)
    (hdl : Int) (h : (sqlite_open env s args).2.1 = PhasorValue.int hdl) :
    hdl = s.next_db_handle ∧
    ∃ db, (sqlite_open env s args).1.db_table =
      insertTable s.db_table s.next_db_handle db := by
  match args with
  | [] => exact PhasorValue.noConfusion h
  | a0 :: a1 :: rest => exact PhasorValue.noConfusion h
  | [a0] =>
    cases a0 with
    | string str =>
      simp only [sqlite_open, phasor_is_string, if_true, phasor_to_string] at h ⊢
      cases henv : env.openResult str with
      | some db =>
        rw [henv] at h
        exact ⟨(PhasorValue.int.inj h).symm, db, rfl⟩
      | none =>
        rw [henv] at h
        exact PhasorValue.noConfusion h
    | null => exact PhasorValue.noConfusion h
    | bool b => exact PhasorValue.noConfusion h
    | int i => exact PhasorValue.noConfusion h
    | float f => exact PhasorValue.noConfusion h

theorem sqlite_prepare_success (env : Env) (s : BridgeState) (args : List PhasorValue)
    (hdl : Int) (h : (sqlite_prepare env s args).2.1 = PhasorValue.int hdl) :
    hdl = s.next_stmt_handle ∧
    ∃ stmt, (sqlite_prepare env s args).1.stmt_table =
      insertTable s.stmt_table s.next_stmt_handle stmt := by
  match args with
  | [] => exact PhasorValue.noConfusion h
  | [a0] => exact PhasorValue.noConfusion h
  | a0 :: a1 :: a2 :: rest => exact PhasorValue.noConfusion h
  | [a0, a1] =>
    cases a0 with
    | int i =>
      cases a1 with
      | string str =>
        simp only [sqlite_prepare, phasor_is_int, phasor_is_string, Bool.and_self,
          if_true, phasor_to_int, phasor_to_string] at h ⊢
        cases hdb : get_db s (toInt32 i) with
        | some db =>
          rw [hdb] at h
          dsimp only at h ⊢
          cases hp : env.prepareResult db str with
          | some stmt =>
            rw [hp] at h
            exact ⟨(PhasorValue.int.inj h).symm, stmt, rfl⟩
          | none =>
            rw [hp] at h
            exact PhasorValue.noConfusion h
        | none =>
          rw [hdb] at h
          exact PhasorValue.noConfusion h
      | null => exact PhasorValue.noConfusion h
      | bool b => exact PhasorValue.noConfusion h
      | int j => exact PhasorValue.noConfusion h
      | float f => exact PhasorValue.noConfusion h
    | null => exact PhasorValue.noConfusion h
    | bool b => exact PhasorValue.noConfusion h
    | float f => exact PhasorValue.noConfusion h
    | string str => exact PhasorValue.noConfusion h

theorem sqlite_column_text_success (env : Env) (s : BridgeState) (args : List PhasorValue)
    (str : String) (h : (sqlite_column env s args).2.1 = PhasorValue.string str) :
    (sqlite_column env s args).1.string_table =
      insertTable s.string_table s.next_string_handle str ∧
    (sqlite_column env s args).1.next_string_handle = s.next_string_handle + 1 := by
  match args with
  | [] => exact PhasorValue.noConfusion h
  | [a0] => exact PhasorValue.noConfusion h
  | a0 :: a1 :: a2 :: rest => exact PhasorValue.noConfusion h
  | [a0, a1] =>
    cases a0 with
    | int i =>
      cases a1 with
      | int j =>
        simp only [sqlite_column, phasor_is_int, Bool.and_self, if_true,
          phasor_to_int] at h ⊢
        cases hst : get_stmt s (toInt32 i) with
        | some stmt =>
          rw [hst] at h
          dsimp only at h ⊢
          by_cases hb : (decide (toInt32 j < 0) ||
              decide (env.columnCount stmt ≤ toInt32 j)) = true
          · rw [if_pos hb] at h
            exact PhasorValue.noConfusion h
          · rw [if_neg hb] at h
            cases hct : env.columnType stmt (toInt32 j) with
            | integer =>
              rw [hct] at h
              exact PhasorValue.noConfusion h
            | float =>
              rw [hct] at h
              exact PhasorValue.noConfusion h
            | text =>
              rw [hct] at h
              dsimp only [store_string] at h
              have hstr : env.columnText stmt (toInt32 j) = str :=
                PhasorValue.string.inj h
              rw [if_neg hb]
              dsimp only [store_string]
              rw [hstr]
              exact ⟨rfl, rfl⟩
            | nullType =>
              rw [hct] at h
              exact PhasorValue.noConfusion h
            | blob =>
              rw [hct] at h
              exact PhasorValue.noConfusion h
        | none =>
          rw [hst] at h
          exact PhasorValue.noConfusion h
      | null => exact PhasorValue.noConfusion h
      | bool b => exact PhasorValue.noConfusion h
      | float f => exact PhasorValue.noConfusion h
      | string s2 => exact PhasorValue.noConfusion h
    | null => exact PhasorValue.noConfusion h
    | bool b => exact PhasorValue.noConfusion h
    | float f => exact PhasorValue.noConfusion h
    | string s2 => exact PhasorValue.noConfusion h

theorem sqlite_close_true (env : Env) (s : BridgeState) (args : List PhasorValue)
    (h : (sqlite_close env s args).2.1 = PhasorValue.bool true) :
    ∃ k db, lookupTable s.db_table k = some db ∧
      (sqlite_close env s args).1.db_table = eraseTable s.db_table k := by
  match args with
  | [] => exact Bool.noConfusion (PhasorValue.bool.inj h)
  | a0 :: a1 :: rest => exact Bool.noConfusion (PhasorValue.bool.inj h)
  | [a0] =>
    cases a0 with
    | int i =>
      simp only [sqlite_close, phasor_is_int, if_true, phasor_to_int] at h ⊢
      cases hl : lookupTable s.db_table (toInt32 i) with
      | some db => exact ⟨toInt32 i, db, hl, rfl⟩
      | none =>
        rw [hl] at h
        exact Bool.noConfusion (PhasorValue.bool.inj h)
    | null => exact Bool.noConfusion (PhasorValue.bool.inj h)
    | bool b => exact Bool.noConfusion (PhasorValue.bool.inj h)
    | float f => exact Bool.noConfusion (PhasorValue.bool.inj h)
    | string str => exact Bool.noConfusion (PhasorValue.bool.inj h)

theorem sqlite_finalize_true (env : Env) (s : BridgeState) (args : List PhasorValue)
    (h : (sqlite_finalize env s args).2.1 = PhasorValue.bool true) :
    ∃ k stmt, lookupTable s.stmt_table k = some stmt ∧
      (sqlite_finalize env s args).1.stmt_table = eraseTable s.stmt_table k := by
  match args with
  | [] => exact Bool.noConfusion (PhasorValue.bool.inj h)
  | a0 :: a1 :: rest => exact Bool.noConfusion (PhasorValue.bool.inj h)
  | [a0] =>
    cases a0 with
    | int i =>
      simp only [sqlite_finalize, phasor_is_int, if_true, phasor_to_int] at h ⊢
      cases hl : lookupTable s.stmt_table (toInt32 i) with
      | some stmt => exact ⟨toInt32 i, stmt, hl, rfl⟩
      | none =>
        rw [hl] at h
        exact Bool.noConfusion (PhasorValue.bool.inj h)
    | null => exact Bool.noConfusion (PhasorValue.bool.inj h)
    | bool b => exact Bool.noConfusion (PhasorValue.bool.inj h)
    | float f => exact Bool.noConfusion (PhasorValue.bool.inj h)
    | string str => exact Bool.noConfusion (PhasorValue.bool.inj h)

/-- C3: each handle space has its own counter starting at 1; every handle
recorded as allocated is strictly below the current counter, so the next
allocation (which hands out exactly the counter value, as the open and
prepare result characterizations state) is strictly greater than every
handle previously allocated in that space; and a handle that is below the
counter and currently resolves to not-found keeps resolving to not-found in
every state reachable from there, so a released handle is never reassigned
to a different live resource. -/
theorem C3_monotonic_handles_never_reused :
    (initialState.next_db_handle = 1 ∧ initialState.next_stmt_handle = 1 ∧
      initialState.next_string_handle = 1) ∧
    (∀ s h, ReachHist s h →
      (∀ k ∈ h.dbAllocs, k < s.next_db_handle) ∧
      (∀ k ∈ h.stmtAllocs, k < s.next_stmt_handle) ∧
      (∀ k ∈ h.stringAllocs, k < s.next_string_handle)) ∧
    (∀ env s args hdl,
      ((sqlite_open env s args).2.1 = PhasorValue.int hdl → hdl = s.next_db_handle) ∧
      ((sqlite_prepare env s args).2.1 = PhasorValue.int hdl → hdl = s.next_stmt_handle)) ∧
    (∀ s s2, ReachFrom s s2 → ∀ k,
      (k < s.next_db_handle → lookupTable s.db_table k = none →
        lookupTable s2.db_table k = none) ∧
      (k < s.next_stmt_handle → lookupTable s.stmt_table k = none →
        lookupTable s2.stmt_table k = none) ∧
      (k < s.next_string_handle → lookupTable s.string_table k = none →
        lookupTable s2.string_table k = none)) := by
  refine ⟨⟨rfl, rfl, rfl⟩, fun s h hr => reachHist_bound hr, ?_, ?_⟩
  · intro env s args hdl
    exact ⟨fun h => (sqlite_open_success env s args hdl h).1,
      fun h => (sqlite_prepare_success env s args hdl h).1⟩
  · intro s s2 hr k
    exact ⟨fun hk hl => (reachFrom_none_db hr k hk hl).2,
      fun hk hl => (reachFrom_none_stmt hr k hk hl).2,
      fun hk hl => (reachFrom_none_string hr k hk hl).2⟩

/-- Witness for C3: after one successful open from the initial state the
allocation history holds exactly handle 1, below the new counter 2; the
open returned exactly the old counter value 1; and the absent handle 0
still resolves to not-found after the step. -/
theorem C3_monotonic_handles_never_reused_witness :
    (∀ k ∈ (stepAllocs initialState
        (applyOp .openOp env0 initialState [.string "a"]).1 ⟨[], [], []⟩).dbAllocs,
      k < (applyOp .openOp env0 initialState [.string "a"]).1.next_db_handle) ∧
    (1 : Int) = initialState.next_db_handle ∧
    lookupTable (applyOp .openOp env0 initialState [.string "a"]).1.db_table 0 = none := by
  have h := C3_monotonic_handles_never_reused
  refine ⟨(h.2.1 _ _ (ReachHist.step .openOp env0 [.string "a"] ReachHist.init)).1,
    (h.2.2.1 env0 initialState [.string "a"] 1).1 rfl,
    (h.2.2.2 initialState _
      (ReachFrom.step .openOp env0 [.string "a"] (ReachFrom.refl _)) 0).1
      (by decide) rfl⟩

/-- C4: a successful open immediately followed by close on the returned
handle yields true with exactly one native close call; a second close on
the same handle yields false, makes no native call, and leaves the state
unchanged.  The hypotheses say the native open succeeds, the next handle is
not yet a key of the table (true in every reachable state), and the counter
fits the C int type (true on every execution free of signed overflow). -/
theorem C4_close_idempotent_failure (env : Env) (s : BridgeState) (path : String)
    (db : NativeDb) (hopen : env.openResult path = some db)
    (hfresh : lookupTable s.db_table s.next_db_handle = none)
    (hlo : -(2 ^ 31) ≤ s.next_db_handle) (hhi : s.next_db_handle < 2 ^ 31) :
    (sqlite_open env s [.string path]).2.1 = PhasorValue.int s.next_db_handle ∧
    (sqlite_close env (sqlite_open env s [.string path]).1 [.int s.next_db_handle]).2.1 =
      PhasorValue.bool true ∧
    (sqlite_close env (sqlite_open env s [.string path]).1 [.int s.next_db_handle]).2.2 =
      [NativeCall.closeCall db] ∧
    sqlite_close env
        (sqlite_close env (sqlite_open env s [.string path]).1 [.int s.next_db_handle]).1
        [.int s.next_db_handle] =
      ((sqlite_close env (sqlite_open env s [.string path]).1 [.int s.next_db_handle]).1,
       PhasorValue.bool false, []) := by
  have h32 : toInt32 s.next_db_handle = s.next_db_handle := toInt32_eq_self hlo hhi
  have hopen2 : sqlite_open env s [.string path] =
      ({ s with db_table := insertTable s.db_table s.next_db_handle db,
                next_db_handle := s.next_db_handle + 1 },
       .int s.next_db_handle, [.openCall path]) := by
    simp [sqlite_open, phasor_is_string, phasor_to_string, hopen]
  have hc1 : sqlite_close env
      ({ s with db_table := insertTable s.db_table s.next_db_handle db,
                next_db_handle := s.next_db_handle + 1 }) [.int s.next_db_handle] =
      ({ s with next_db_handle := s.next_db_handle + 1 },
       .bool true, [.closeCall db]) := by
    simp [sqlite_close, phasor_is_int, phasor_to_int, h32, lookupTable_insert_self,
      eraseTable_insertTable _ _ _ hfresh]
  have hc2 : sqlite_close env ({ s with next_db_handle := s.next_db_handle + 1 })
      [.int s.next_db_handle] =
      ({ s with next_db_handle := s.next_db_handle + 1 }, .bool false, []) := by
    simp [sqlite_close, phasor_is_int, phasor_to_int, h32, hfresh]
  rw [hopen2]
  dsimp only
  rw [hc1]
  exact ⟨rfl, rfl, rfl, hc2⟩

/-- Witness for C4 from the initial state with a concrete engine: open
returns handle 1, the first close returns true with one native close, the
second close returns false and changes nothing. -/
theorem C4_close_idempotent_failure_witness :
    env0.openResult "test.db" = some db0 ∧
    lookupTable initialState.db_table initialState.next_db_handle = none ∧
    (sqlite_open env0 initialState [.string "test.db"]).2.1 =
      PhasorValue.int initialState.next_db_handle ∧
    (sqlite_close env0 (sqlite_open env0 initialState [.string "test.db"]).1
        [.int initialState.next_db_handle]).2.1 = PhasorValue.bool true ∧
    (sqlite_close env0 (sqlite_open env0 initialState [.string "test.db"]).1
        [.int initialState.next_db_handle]).2.2 = [NativeCall.closeCall db0] ∧
    sqlite_close env0
        (sqlite_close env0 (sqlite_open env0 initialState [.string "test.db"]).1
          [.int initialState.next_db_handle]).1 [.int initialState.next_db_handle] =
      ((sqlite_close env0 (sqlite_open env0 initialState [.string "test.db"]).1
          [.int initialState.next_db_handle]).1, PhasorValue.bool false, []) := by
  obtain ⟨w1, w2, w3, w4⟩ :=
    C4_close_idempotent_failure env0 initialState "test.db" db0 rfl rfl
      (by decide) (by decide)
  exact ⟨rfl, rfl, w1, w2, w3, w4⟩

/-- C9: in every reachable state, a successful open adds exactly one
connection entry and touches no other table; a successful prepare adds
exactly one statement entry and touches no other table; a text column read
(the one case where column returns a string) adds exactly one string entry
and touches no other table; a successful close removes exactly one
connection entry and a successful finalize exactly one statement entry,
each leaving the other tables unchanged; exec and step never change the
state, and free_string never touches the connection or statement table. -/
theorem C9_one_entry_per_create_destroy (env : Env) (s : BridgeState) (hs : Reach s) :
    (∀ args hdl, (sqlite_open env s args).2.1 = PhasorValue.int hdl →
      (sqlite_open env s args).1.db_table.length = s.db_table.length + 1 ∧
      (sqlite_open env s args).1.stmt_table = s.stmt_table ∧
      (sqlite_open env s args).1.string_table = s.string_table) ∧
    (∀ args hdl, (sqlite_prepare env s args).2.1 = PhasorValue.int hdl →
      (sqlite_prepare env s args).1.stmt_table.length = s.stmt_table.length + 1 ∧
      (sqlite_prepare env s args).1.db_table = s.db_table ∧
      (sqlite_prepare env s args).1.string_table = s.string_table) ∧
    (∀ args str, (sqlite_column env s args).2.1 = PhasorValue.string str →
      (sqlite_column env s args).1.string_table.length = s.string_table.length + 1 ∧
      (sqlite_column env s args).1.db_table = s.db_table ∧
      (sqlite_column env s args).1.stmt_table = s.stmt_table) ∧
    (∀ args, (sqlite_close env s args).2.1 = PhasorValue.bool true →
      (sqlite_close env s args).1.db_table.length + 1 = s.db_table.length ∧
      (sqlite_close env s args).1.stmt_table = s.stmt_table ∧
      (sqlite_close env s args).1.string_table = s.string_table) ∧
    (∀ args, (sqlite_finalize env s args).2.1 = PhasorValue.bool true →
      (sqlite_finalize env s args).1.stmt_table.length + 1 = s.stmt_table.length ∧
      (sqlite_finalize env s args).1.db_table = s.db_table ∧
      (sqlite_finalize env s args).1.string_table = s.string_table) ∧
    (∀ args, (sqlite_exec env s args).1 = s) ∧
    (∀ args, (sqlite_step env s args).1 = s) ∧
    (∀ args, (sqlite_free_string env s args).1.db_table = s.db_table ∧
      (sqlite_free_string env s args).1.stmt_table = s.stmt_table) := by
  refine ⟨?_, ?_, ?_, ?_, ?_, sqlite_exec_state env s, sqlite_step_state env s, ?_⟩
  · intro args hdl h
    obtain ⟨-, db, hdb⟩ := sqlite_open_success env s args hdl h
    obtain ⟨hf1, hf2, -, -⟩ := sqlite_open_frame env s args
    rw [hdb, length_insertTable_of_none _ _ _ (reach_fresh_db hs)]
    exact ⟨rfl, hf1, hf2⟩
  · intro args hdl h
    obtain ⟨-, stmt, hst⟩ := sqlite_prepare_success env s args hdl h
    obtain ⟨hf1, hf2, -, -⟩ := sqlite_prepare_frame env s args
    rw [hst, length_insertTable_of_none _ _ _ (reach_fresh_stmt hs)]
    exact ⟨rfl, hf1, hf2⟩
  · intro args str h
    obtain ⟨hins, -⟩ := sqlite_column_text_success env s args str h
    obtain ⟨hf1, hf2, -, -⟩ := sqlite_column_frame env s args
    rw [hins, length_insertTable_of_none _ _ _ (reach_fresh_string hs)]
    exact ⟨rfl, hf1, hf2⟩
  · intro args h
    obtain ⟨k, db, hlk, herase⟩ := sqlite_close_true env s args h
    obtain ⟨hf1, hf2, -, -⟩ := sqlite_close_frame env s args
    rw [herase, length_eraseTable_of_some _ _ _ hlk]
    exact ⟨rfl, hf1, hf2⟩
  · intro args h
    obtain ⟨k, stmt, hlk, herase⟩ := sqlite_finalize_true env s args h
    obtain ⟨hf1, hf2, -, -⟩ := sqlite_finalize_frame env s args
    rw [herase, length_eraseTable_of_some _ _ _ hlk]
    exact ⟨rfl, hf1, hf2⟩
  · intro args
    obtain ⟨hf1, hf2, -, -⟩ := sqlite_free_string_frame env s args
    exact ⟨hf1, hf2⟩

/-- Witness for C9 at the initial state: a successful open grows the
connection table from zero to one entry and leaves the other tables empty,
and exec leaves the state unchanged. -/
theorem C9_one_entry_per_create_destroy_witness :
    (sqlite_open env0 initialState [.string "a"]).2.1 = PhasorValue.int 1 ∧
    (sqlite_open env0 initialState [.string "a"]).1.db_table.length =
      initialState.db_table.length + 1 ∧
    (sqlite_open env0 initialState [.string "a"]).1.stmt_table =
      initialState.stmt_table ∧
    (sqlite_exec env0 initialState []).1 = initialState := by
  obtain ⟨h1, -, -, -, -, h6, -, -⟩ :=
    C9_one_entry_per_create_destroy env0 initialState Reach.init
  obtain ⟨w1, w2, -⟩ := h1 [.string "a"] 1 rfl
  exact ⟨rfl, w1, w2, h6 []⟩

end SQLitePhasor
